import Mathlib

/-!
# BLE logger transport — verification of the stop-and-wait chunking core

Shallow embedding of the transport layer of `src/script.js` (micro:bit BLE
logger): frame capacity computation, message segmentation, the single-slot
acknowledgment correlator, and the send orchestration.

Modelling conventions:
* JavaScript strings are modelled as `List Char`; `.length`, `.slice`,
  `.startsWith`, `.trim` become the corresponding list operations.  All
  protocol traffic is ASCII, so UTF-8 byte length (`encoder.encode(s).length`)
  coincides with the character count.
* The module-level mutable variables (`isConnected`, `writeChar`,
  `sendInProgress`, `awaitingPayload`, `awaitingResolve`, `awaitingReject`,
  `awaitingTimer`) are gathered in a state record; the function-valued
  resolver/rejecter slots and the timer handle are modelled by their
  presence (`Bool`), the expected payload by `Option (List Char)`.
* The suspension of `await waitForAck(payload)` on the single-threaded event
  loop is linearised by an oracle `evs : Nat → AckEvent` giving, for each
  frame index, which of the three resolutions of the pending wait happens
  first: a matching echo, timer expiry (which rejects with the
  `ACK timeout for payload: "<p>"` error of `waitForAck`), or an abort from
  `abortPendingAck` (disconnect).
* Raw BLE writes are recorded in order in a `writes` list; log lines that
  carry a control signal (`Not connected`, `Send already in progress`,
  the whitespace refusal, `Message is empty`) are recorded in a `logs` list.
-/

/-- Constant `BLE_MAX_WRITE_BYTES = 20` — the atomic link write budget. -/
def BLE_MAX_WRITE_BYTES : Nat := 20

/-- Constant `LINE_END_BYTES = 1` — the trailing `'\n'`. -/
def LINE_END_BYTES : Nat := 1

/-- Constant `MAX_SEQ = 1000`. -/
def MAX_SEQ : Nat := 1000

/-- Decimal digit count of `seq`, i.e. `String(seq).length`. -/
def seqDigits (seq : Nat) : Nat := (Nat.repr seq).length

/-- Function `maxDataLenForSeq` (src/script.js:336-341):
`Math.max(1, (BLE_MAX_WRITE_BYTES - LINE_END_BYTES) - (seqLen + 1))`.
Natural subtraction truncates at 0, which the outer `max 1` makes agree with
the JavaScript integer arithmetic. -/
def maxDataLenForSeq (seq : Nat) : Nat :=
  max 1 ((BLE_MAX_WRITE_BYTES - LINE_END_BYTES) - (seqDigits seq + 1))

/-- One frame of a segmented send.  The JS object stores `seq` together with
the already-formatted payload string; we store `seq` and the data slice and
derive the payload. -/
structure Frame where
  seq : Nat
  data : List Char
deriving DecidableEq, Inhabited

/-- The wire payload of a frame: `"<seq>|<data>"`. -/
def framePayload (seq : Nat) (data : List Char) : List Char :=
  (Nat.repr seq).toList ++ '|' :: data

/-- Payload of a built frame. -/
def payloadOf (f : Frame) : List Char := framePayload f.seq f.data

/-- The full wire form of a frame as written by `sendMessageDirect`:
`"<seq>|<data>\n"`. -/
def encodeWire (seq : Nat) (data : List Char) : List Char :=
  framePayload seq data ++ [ '\n' ]

/-- The loop body of `makeFramesNoSpaces` (src/script.js:343-360), with the
cursor `i` replaced by structural `take`/`drop`: while input remains, take
`maxDataLenForSeq seq` characters, emit the frame, advance, and step
`seq := (seq + 1) % (MAX_SEQ + 1)`.  The first argument is structural fuel;
each iteration consumes at least one character, so fuel `msg.length`
segments the whole message (every lemma below carries that bound). -/
def makeFramesGo : Nat → List Char → Nat → List Frame
  | 0, _, _ => []
  | _ + 1, [], _ => []
  | fuel + 1, c :: cs, seq =>
    let dataLen := maxDataLenForSeq seq
    { seq := seq, data := (c :: cs).take dataLen } ::
      makeFramesGo fuel ((c :: cs).drop dataLen) ((seq + 1) % (MAX_SEQ + 1))

/-- Function `makeFramesNoSpaces(msg)`: segmentation starting at `seq = 0`. -/
def makeFramesNoSpaces (msg : List Char) : List Frame :=
  makeFramesGo msg.length msg 0

/-- Function `makeTestString0to1000` (src/script.js:407-411): concatenation of the
decimal representations of 0..1000. -/
def makeTestString0to1000 : List Char :=
  (List.range (MAX_SEQ + 1)).foldl (fun s i => s ++ (Nat.repr i).toList) []

/-- The module-level BLE/ack state of src/script.js (lines 42-58).  The
resolver, rejecter and timer slots hold their presence. -/
structure SessionVars where
  isConnected : Bool
  hasWriteChar : Bool
  sendInProgress : Bool
  awaitingPayload : Option (List Char)
  awaitingResolve : Bool
  awaitingReject : Bool
  awaitingTimer : Bool
deriving DecidableEq

/-- Function `abortPendingAck` (src/script.js:283-298): clears the timer and every
pending-ack slot (the stored rejecter is invoked with the abort reason; the
waiter-side effect is carried by the `AckEvent.aborted` oracle value). -/
def abortPendingAck (st : SessionVars) : SessionVars :=
  { st with awaitingTimer := false, awaitingReject := false,
            awaitingResolve := false, awaitingPayload := none }

/-- Function `tryResolveAck(echoedPayload)` (src/script.js:316-329): no-op unless a
resolver is armed and a payload is expected; on an exact payload match it
cancels the timer, clears every slot and resolves the waiter; on a mismatch
it changes nothing. -/
def tryResolveAck (echoed : List Char) (st : SessionVars) : SessionVars :=
  if !st.awaitingResolve || st.awaitingPayload = none then st
  else if some echoed = st.awaitingPayload then
    { st with awaitingTimer := false, awaitingResolve := false,
              awaitingReject := false, awaitingPayload := none }
  else st

/-- JavaScript `s.startsWith(p)` on character lists. -/
def strStartsWith : List Char → List Char → Bool
  | _, [] => true
  | [], _ :: _ => false
  | c :: cs, p :: ps => c = p && strStartsWith cs ps

/-- The ACK-detection header `'ECHO:'` (src/script.js:258). -/
def echoColonHdr : List Char := "ECHO:".toList

/-- The spaced variant `'ECHO: '` (src/script.js:259). -/
def echoColonSpHdr : List Char := "ECHO: ".toList

/-- The ACK-detection step of `handleIncomingData` for one complete trimmed
line (src/script.js:256-262): a line starting with `'ECHO:'` is fed to
`tryResolveAck`, taking the remainder after `'ECHO: '` (slice 6) when the
spaced variant matches, else after `'ECHO:'` (slice 5); any other line is
left to the log only. -/
def handleAckLine (line : List Char) (st : SessionVars) : SessionVars :=
  if strStartsWith line echoColonHdr then
    let echoed := if strStartsWith line echoColonSpHdr then line.drop 6 else line.drop 5
    tryResolveAck echoed st
  else st

/-- Which of the three resolutions of a pending `waitForAck` happens first on
the event loop: matching echo, timer expiry, or `abortPendingAck reason`. -/
inductive AckEvent
  | echoOk
  | timeout
  | aborted (reason : List Char)
deriving DecidableEq

/-- The rejection error built by the `waitForAck` timer
(src/script.js:311): `ACK timeout for payload: "<payload>"`. -/
def ackTimeoutMsg (payload : List Char) : List Char :=
  "ACK timeout for payload: \"".toList ++ payload ++ "\"".toList

/-- Outcome of one `await waitForAck(payload)` under the event oracle:
`none` on resolution, `some err` on rejection. -/
def ackReject (payload : List Char) : AckEvent → Option (List Char)
  | .echoOk => none
  | .timeout => some (ackTimeoutMsg payload)
  | .aborted reason => some reason

/-- The frame loop of `sendChunkedSeqStopAndWait` (src/script.js:382-386):
write the payload of frame `k`, await its ack; stop at the first rejection.
Returns the payloads actually written and the error (if any) that reached
the `catch`. -/
def sendLoop : List (List Char) → (Nat → AckEvent) → Nat →
    List (List Char) × Option (List Char)
  | [], _, _ => ([], none)
  | p :: rest, evs, k =>
    match ackReject p (evs k) with
    | none =>
      let r := sendLoop rest evs (k + 1)
      (p :: r.1, r.2)
    | some e => ([p], some e)

/-- The `{ ok, bytes, ms, frames }` result object of
`sendChunkedSeqStopAndWait` (`ms` is wall-clock time and is not modelled). -/
structure SendOutcome where
  ok : Bool
  bytes : Nat
  frames : Nat
deriving DecidableEq

/-- One run of `sendChunkedSeqStopAndWait`: final state, result object, raw
writes in order, control-signal log lines, and the error caught (if any). -/
structure SendRun where
  st : SessionVars
  res : SendOutcome
  writes : List (List Char)
  logs : List (List Char)
  err : Option (List Char)
deriving DecidableEq

/-- Log line of src/script.js:364 / 269. -/
def notConnectedLog : List Char := "Not connected".toList

/-- Log line of src/script.js:368. -/
def busyLog : List Char := "Send already in progress".toList

/-- The `finally` block of `sendChunkedSeqStopAndWait` (src/script.js:393-402):
`sendInProgress = false` and all four pending-ack variables cleared. -/
def clearSendState (st : SessionVars) : SessionVars :=
  { st with sendInProgress := false, awaitingPayload := none,
            awaitingResolve := false, awaitingReject := false,
            awaitingTimer := false }

/-- Function `sendChunkedSeqStopAndWait(fullMessage)` (src/script.js:362-403):
reject when not connected, reject when a send is in progress, otherwise
segment the message, drive the stop-and-wait loop, and in all cases run the
`finally` cleanup.  `bytes` is `encoder.encode(fullMessage).length` (the
character count for the ASCII traffic modelled here); `frames` is the total
segment count on success and on failure alike. -/
def sendChunkedSeqStopAndWait (st : SessionVars) (msg : List Char)
    (evs : Nat → AckEvent) : SendRun :=
  if !(st.isConnected && st.hasWriteChar) then
    ⟨st, ⟨false, 0, 0⟩, [], [notConnectedLog], none⟩
  else if st.sendInProgress then
    ⟨st, ⟨false, 0, 0⟩, [], [busyLog], none⟩
  else
    let frames := makeFramesNoSpaces msg
    let r := sendLoop (frames.map payloadOf) evs 0
    ⟨clearSendState st, ⟨r.2 = none, msg.length, frames.length⟩,
      r.1.map (fun p => p ++ [ '\n' ]), [], r.2⟩

/-- The tx log line `→ <message>` of `sendMessageDirect`. -/
def txLog (message : List Char) : List Char := '→' :: ' ' :: message

/-- Function `sendMessageDirect(message)` (src/script.js:267-279): when connected with
a write characteristic, one raw write of `message + '\n'`; otherwise only the
`Not connected` log.  It never touches the session variables and never waits
for an acknowledgment. -/
def sendMessageDirect (st : SessionVars) (message : List Char) :
    SessionVars × List (List Char) × List (List Char) :=
  if st.isConnected && st.hasWriteChar then
    (st, [message ++ [ '\n' ]], [txLog message])
  else
    (st, [], [notConnectedLog])

/-- JavaScript `\s` / `trim()` whitespace, restricted to the ASCII range the
protocol traffic uses. -/
def isJsSpace (c : Char) : Bool :=
  c = ' ' || c = '\t' || c = '\n' || c = '\x0d' || c = '\x0b' || c = '\x0c'

/-- JavaScript `message.trim()`: strip leading and trailing whitespace. -/
def jsTrim (msg : List Char) : List Char :=
  ((msg.dropWhile isJsSpace).reverse.dropWhile isJsSpace).reverse

/-- Log line of src/script.js:444. -/
def emptyMsgLog : List Char := "Message is empty".toList

/-- Log line of src/script.js:451. -/
def wsRefusalLog : List Char :=
  "Refused: message contains whitespace. This protocol requires NO SPACES.".toList

/-- One run of the UI-level `sendMessage`: final state, raw writes,
control-signal logs, and the chunked-path result object when that path ran
(the short path produces no result object). -/
structure UiRun where
  st : SessionVars
  writes : List (List Char)
  logs : List (List Char)
  chunkedRes : Option SendOutcome
deriving DecidableEq

/-- Function `sendMessage()` (src/script.js:441-468) for an input-field value
`message`: empty check, unconditional whitespace refusal on the trimmed
message, then either the direct write of the seq-0 framed payload
`"0|" + trimmed` (when `trimmed.length <= maxDataLenForSeq(0)`) or the
chunked stop-and-wait sender on `trimmed`. -/
def sendMessage (st : SessionVars) (message : List Char)
    (evs : Nat → AckEvent) : UiRun :=
  if message.isEmpty || (jsTrim message).isEmpty then
    ⟨st, [], [emptyMsgLog], none⟩
  else
    let trimmed := jsTrim message
    if trimmed.any isJsSpace then
      ⟨st, [], [wsRefusalLog], none⟩
    else
      let seq0Payload := '0' :: '|' :: trimmed
      if trimmed.length ≤ maxDataLenForSeq 0 then
        let d := sendMessageDirect st seq0Payload
        ⟨d.1, d.2.1, d.2.2, none⟩
      else
        let r := sendChunkedSeqStopAndWait st trimmed evs
        ⟨r.st, r.writes, r.logs, some r.res⟩

/-- A connected, idle session with an empty correlator slot. -/
def idleConnected : SessionVars :=
  ⟨true, true, false, none, false, false, false⟩

/-- A connected session with a send in flight: frame payload `"0|abc"`
pending, resolver, rejecter and timer armed. -/
def busySession : SessionVars :=
  ⟨true, true, true, some ('0' :: '|' :: 'a' :: 'b' :: 'c' :: []), true, true, true⟩

/-- Oracle: every ack arrives as a matching echo. -/
def allEchoOk : Nat → AckEvent := fun _ => .echoOk

/-- Oracle: every pending wait times out. -/
def allTimeout : Nat → AckEvent := fun _ => .timeout

/-! ## Basic facts about the capacity function and the segmenter -/

theorem maxDataLenForSeq_pos (seq : Nat) : 1 ≤ maxDataLenForSeq seq :=
  le_max_left _ _

set_option maxRecDepth 10000 in
/-- For every reachable sequence number, digits + capacity = 18: the wire
frame `"<seq>|<data>\n"` built at full capacity is exactly 20 bytes. -/
theorem seqDigits_add_maxData : ∀ s, s < 1001 → seqDigits s + maxDataLenForSeq s = 18 := by
  decide

set_option maxRecDepth 10000 in
/-- No reachable sequence number allows more than 17 data characters. -/
theorem maxDataLenForSeq_le : ∀ s, s < 1001 → maxDataLenForSeq s ≤ 17 := by
  decide

/-- Out of fuel: no frames. -/
theorem makeFramesGo_zero (msg : List Char) (seq : Nat) :
    makeFramesGo 0 msg seq = [] := by
  cases msg <;> rfl

/-- Empty message: no frames. -/
theorem makeFramesGo_nil (fuel seq : Nat) : makeFramesGo fuel [] seq = [] := by
  cases fuel <;> rfl

/-- Unfolding equation of `makeFramesGo` on a nonempty message with fuel. -/
theorem makeFramesGo_cons (fuel : Nat) (c : Char) (cs : List Char) (seq : Nat) :
    makeFramesGo (fuel + 1) (c :: cs) seq =
      { seq := seq, data := (c :: cs).take (maxDataLenForSeq seq) } ::
        makeFramesGo fuel ((c :: cs).drop (maxDataLenForSeq seq))
          ((seq + 1) % (MAX_SEQ + 1)) :=
  rfl

/-- Concatenating the data slices of the frames reproduces the message,
given enough fuel. -/
theorem makeFramesGo_join (fuel : Nat) :
    ∀ (msg : List Char) (seq : Nat), msg.length ≤ fuel →
      ((makeFramesGo fuel msg seq).map Frame.data).flatten = msg := by
  induction fuel with
  | zero =>
    intro msg seq h
    have hnil : msg = [] := List.eq_nil_of_length_eq_zero (Nat.le_zero.mp h)
    subst hnil
    rfl
  | succ fuel ih =>
    intro msg seq h
    cases msg with
    | nil => rfl
    | cons c cs =>
      rw [makeFramesGo_cons]
      simp only [List.map_cons, List.flatten_cons]
      have hd : 1 ≤ maxDataLenForSeq seq := maxDataLenForSeq_pos seq
      have hle : ((c :: cs).drop (maxDataLenForSeq seq)).length ≤ fuel := by
        simp only [List.length_drop, List.length_cons] at h ⊢
        omega
      rw [ih _ _ hle, List.take_append_drop]

/-- Every frame consumes at most 17 characters, so a message of length `L`
needs at least `L / 17` frames (stated multiplicatively). -/
theorem makeFramesGo_length_le (fuel : Nat) :
    ∀ (msg : List Char) (seq : Nat), msg.length ≤ fuel → seq < MAX_SEQ + 1 →
      msg.length ≤ 17 * (makeFramesGo fuel msg seq).length := by
  induction fuel with
  | zero =>
    intro msg seq h _
    simp only [Nat.le_zero] at h
    omega
  | succ fuel ih =>
    intro msg seq h hseq
    cases msg with
    | nil => simp
    | cons c cs =>
      rw [makeFramesGo_cons]
      have hd17 : maxDataLenForSeq seq ≤ 17 := maxDataLenForSeq_le seq (by exact hseq)
      have hd1 : 1 ≤ maxDataLenForSeq seq := maxDataLenForSeq_pos seq
      have hrec := ih ((c :: cs).drop (maxDataLenForSeq seq)) ((seq + 1) % (MAX_SEQ + 1))
        (by simp only [List.length_drop, List.length_cons] at h ⊢; omega)
        (Nat.mod_lt _ (by omega))
      simp only [List.length_cons, List.length_drop] at hrec ⊢
      omega

/-- The `k`-th frame (0-indexed) emitted from starting number `seq` carries
sequence number `(seq + k) % (MAX_SEQ + 1)`. -/
theorem makeFramesGo_seq_at (fuel : Nat) :
    ∀ (msg : List Char) (seq k : Nat) (f : Frame), seq < MAX_SEQ + 1 →
      (makeFramesGo fuel msg seq)[k]? = some f →
      f.seq = (seq + k) % (MAX_SEQ + 1) := by
  induction fuel with
  | zero =>
    intro msg seq k f _ hget
    rw [makeFramesGo_zero] at hget
    simp at hget
  | succ fuel ih =>
    intro msg seq k f hseq hget
    cases msg with
    | nil =>
      rw [makeFramesGo_nil] at hget
      simp at hget
    | cons c cs =>
      rw [makeFramesGo_cons] at hget
      cases k with
      | zero =>
        simp only [List.getElem?_cons_zero, Option.some.injEq] at hget
        rw [← hget]
        simp [Nat.mod_eq_of_lt hseq]
      | succ k =>
        simp only [List.getElem?_cons_succ] at hget
        have hrec := ih _ _ k f (Nat.mod_lt _ (by omega)) hget
        rw [hrec, Nat.mod_add_mod]
        have harith : seq + 1 + k = seq + (k + 1) := by omega
        rw [harith]

/-- Specialisation to `makeFramesNoSpaces`: concatenation of the data slices
reproduces the message. -/
theorem makeFramesNoSpaces_join (msg : List Char) :
    ((makeFramesNoSpaces msg).map Frame.data).flatten = msg :=
  makeFramesGo_join msg.length msg 0 (Nat.le_refl _)

/-- Specialisation: a message of length `L` needs at least `L / 17` frames. -/
theorem makeFramesNoSpaces_length_le (msg : List Char) :
    msg.length ≤ 17 * (makeFramesNoSpaces msg).length :=
  makeFramesGo_length_le msg.length msg 0 (Nat.le_refl _) (Nat.succ_pos MAX_SEQ)

/-- Specialisation: the `k`-th frame carries `(0 + k) % (MAX_SEQ + 1)`. -/
theorem makeFramesNoSpaces_seq_at (msg : List Char) (k : Nat) (f : Frame)
    (hget : (makeFramesNoSpaces msg)[k]? = some f) :
    f.seq = (0 + k) % (MAX_SEQ + 1) :=
  makeFramesGo_seq_at msg.length msg 0 k f (Nat.succ_pos MAX_SEQ) hget

/-- If the first `k` acks resolve and the `k`-th pending wait (0-indexed)
is rejected, the loop writes exactly the first `k + 1` payloads and the
`catch` receives the rejection error of the `k`-th wait. -/
theorem sendLoop_fail (k : Nat) :
    ∀ (ps : List (List Char)) (evs : Nat → AckEvent) (start : Nat),
      k < ps.length → (∀ j, j < k → evs (start + j) = .echoOk) →
      evs (start + k) ≠ .echoOk →
      sendLoop ps evs start =
        (ps.take (k + 1), (ps[k]?).bind fun p => ackReject p (evs (start + k))) := by
  induction k with
  | zero =>
    intro ps evs start hk hbefore hfail
    cases ps with
    | nil => simp at hk
    | cons p rest =>
      cases hev : evs start with
      | echoOk => exact absurd (by simpa using hev) hfail
      | timeout => simp [sendLoop, hev, ackReject]
      | aborted r => simp [sendLoop, hev, ackReject]
  | succ k ih =>
    intro ps evs start hk hbefore hfail
    cases ps with
    | nil => simp at hk
    | cons p rest =>
      have h0 : evs start = .echoOk := by simpa using hbefore 0 (Nat.succ_pos k)
      have hk' : k < rest.length := by simpa using hk
      have hbefore' : ∀ j, j < k → evs (start + 1 + j) = .echoOk := by
        intro j hj
        have harith : start + 1 + j = start + (j + 1) := by omega
        rw [harith]
        exact hbefore (j + 1) (by omega)
      have hfail' : evs (start + 1 + k) ≠ .echoOk := by
        have harith : start + 1 + k = start + (k + 1) := by omega
        rw [harith]
        exact hfail
      have ihr := ih rest evs (start + 1) hk' hbefore' hfail'
      have harith : start + 1 + k = start + (k + 1) := by omega
      simp only [sendLoop, h0, ackReject, ihr, harith, List.take_succ_cons,
        List.getElem?_cons_succ]

/-- Auxiliary: a match of a longer header implies a match of each shorter one. -/
theorem strStartsWith_of_append (p : List Char) :
    ∀ (s q : List Char), strStartsWith s (p ++ q) = true → strStartsWith s p = true := by
  induction p with
  | nil =>
    intro s q _
    cases s <;> rfl
  | cons c cs ih =>
    intro s q h
    cases s with
    | nil => simp [strStartsWith] at h
    | cons a as =>
      simp only [List.cons_append, strStartsWith, Bool.and_eq_true] at h ⊢
      exact ⟨h.1, ih as q h.2⟩

/-! ## Claims -/

/-- C2: for every whitespace-free message, concatenating in order the data
slices carried by the frames produced by `makeFramesNoSpaces` reproduces the
message exactly. -/
theorem claim_C2_segment_concat (msg : List Char)
    (hws : msg.any isJsSpace = false) :
    ((makeFramesNoSpaces msg).map Frame.data).flatten = msg :=
  makeFramesNoSpaces_join msg

theorem claim_C2_segment_concat_witness :
    ("abcdefghijklmnopqrstuvwxyz0123456789".toList.any isJsSpace = false) ∧
    ((makeFramesNoSpaces "abcdefghijklmnopqrstuvwxyz0123456789".toList).map
        Frame.data).flatten = "abcdefghijklmnopqrstuvwxyz0123456789".toList :=
  ⟨by decide, claim_C2_segment_concat _ (by decide)⟩

/-- C3: for every `seq` in `[0, MAX_SEQ]`, the wire frame `"<seq>|<data>\n"`
whose data part has length `maxDataLenForSeq seq` is exactly
`BLE_MAX_WRITE_BYTES = 20` bytes long, and a data part of at most that
length never produces a frame above 20 bytes. -/
theorem claim_C3_tight_packing (seq : Nat) (hseq : seq ≤ MAX_SEQ) (data : List Char) :
    (data.length = maxDataLenForSeq seq →
      (encodeWire seq data).length = BLE_MAX_WRITE_BYTES) ∧
    (data.length ≤ maxDataLenForSeq seq →
      (encodeWire seq data).length ≤ BLE_MAX_WRITE_BYTES) := by
  have h1001 : seq < 1001 := Nat.lt_succ_of_le hseq
  have hdig : seqDigits seq + maxDataLenForSeq seq = 18 := seqDigits_add_maxData seq h1001
  have htl : (Nat.repr seq).toList.length = seqDigits seq := rfl
  have hb : BLE_MAX_WRITE_BYTES = 20 := rfl
  have hlen : (encodeWire seq data).length = seqDigits seq + 1 + data.length + 1 := by
    simp only [encodeWire, framePayload, List.length_append, List.length_cons,
      List.length_singleton, List.length_nil]
    rw [htl]
    omega
  constructor <;> intro h <;> omega

theorem claim_C3_tight_packing_witness :
    (encodeWire 0 (List.replicate 17 'a')).length = BLE_MAX_WRITE_BYTES :=
  (claim_C3_tight_packing 0 (by decide) (List.replicate 17 'a')).1 (by decide)

/-- A whitespace-free message long enough to need at least 1001 frames
(17 characters fit per frame at best, so 17 * 1001 characters force it). -/
def longMsgA : List Char := List.replicate 17017 'a'

/-- A whitespace-free message long enough to need at least 1002 frames. -/
def longMsgB : List Char := List.replicate 17034 'a'

/-- C8 counterexample: `longMsgA` needs at least 1001 frames, yet its 1001st
frame (index 1000) carries sequence number 1000, not 0 — sequence numbers
run 0..1000 across the first 1001 frames and only the 1002nd frame wraps. -/
theorem claim_C8_counterexample :
    1001 ≤ (makeFramesNoSpaces longMsgA).length ∧
    ((makeFramesNoSpaces longMsgA)[1000]?).map Frame.seq = some 1000 ∧
    (1000 : Nat) ≠ 0 := by
  have hb := makeFramesNoSpaces_length_le longMsgA
  have hlenA : longMsgA.length = 17017 := by
    show (List.replicate 17017 'a').length = 17017
    rw [List.length_replicate]
  rw [hlenA] at hb
  have hcount : 1001 ≤ (makeFramesNoSpaces longMsgA).length := by omega
  have hlt : 1000 < (makeFramesNoSpaces longMsgA).length := by omega
  obtain ⟨f, hf⟩ : ∃ f, (makeFramesNoSpaces longMsgA)[1000]? = some f :=
    ⟨_, List.getElem?_eq_getElem hlt⟩
  have hseq := makeFramesNoSpaces_seq_at longMsgA 1000 f hf
  refine ⟨hcount, ?_, by decide⟩
  rw [hf]
  simp only [Option.map_some']
  rw [hseq]
  decide

/-- C8 amended: sequence numbers are assigned in send order starting at 0
and advance by `(seq + 1) % (MAX_SEQ + 1)` per frame, so the `k`-th frame
(0-indexed) carries `k % 1001`; for any message long enough to need 1002 or
more frames, the 1002nd frame's seq (index 1001) wraps to 0 — the 1001st
frame still carries `MAX_SEQ = 1000`. -/
theorem claim_C8_seq_wraparound (msg : List Char)
    (h : 1001 < (makeFramesNoSpaces msg).length) :
    ((makeFramesNoSpaces msg)[1001]?).map Frame.seq = some 0 := by
  obtain ⟨f, hf⟩ : ∃ f, (makeFramesNoSpaces msg)[1001]? = some f :=
    ⟨_, List.getElem?_eq_getElem h⟩
  have hseq := makeFramesNoSpaces_seq_at msg 1001 f hf
  rw [hf]
  simp only [Option.map_some']
  rw [hseq]
  decide

theorem claim_C8_seq_wraparound_witness :
    ((makeFramesNoSpaces longMsgB)[1001]?).map Frame.seq = some 0 := by
  refine claim_C8_seq_wraparound longMsgB ?_
  have hb := makeFramesNoSpaces_length_le longMsgB
  have hlenB : longMsgB.length = 17034 := by
    show (List.replicate 17034 'a').length = 17034
    rw [List.length_replicate]
  rw [hlenB] at hb
  omega

/-- Unfolding of an admitted chunked send (connected, write characteristic
present, no send in flight). -/
theorem sendChunked_admitted (st : SessionVars) (msg : List Char)
    (evs : Nat → AckEvent) (hconn : st.isConnected = true)
    (hw : st.hasWriteChar = true) (hidle : st.sendInProgress = false) :
    sendChunkedSeqStopAndWait st msg evs =
      ⟨clearSendState st,
       ⟨decide ((sendLoop ((makeFramesNoSpaces msg).map payloadOf) evs 0).2 = none),
        msg.length, (makeFramesNoSpaces msg).length⟩,
       (sendLoop ((makeFramesNoSpaces msg).map payloadOf) evs 0).1.map
         (fun p => p ++ [ '\n' ]),
       [], (sendLoop ((makeFramesNoSpaces msg).map payloadOf) evs 0).2⟩ := by
  simp [sendChunkedSeqStopAndWait, hconn, hw, hidle]

/-- C5 counterexample input: 18 identical characters segment into two frames
(17 at seq 0, then 1 at seq 1). -/
def msg18 : List Char := List.replicate 18 'a'

/-- C5 counterexample: with every pending wait timing out, the first frame of
`msg18` fails before any frame is resolved (a single write happens), yet the
returned frame count is the total segment count 2, not the 0 frames resolved
before the failure. -/
theorem claim_C5_counterexample :
    (makeFramesNoSpaces msg18).length = 2 ∧
    (sendChunkedSeqStopAndWait idleConnected msg18 allTimeout).writes.length = 1 ∧
    (sendChunkedSeqStopAndWait idleConnected msg18 allTimeout).res.ok = false ∧
    (sendChunkedSeqStopAndWait idleConnected msg18 allTimeout).res.frames = 2 ∧
    (2 : Nat) ≠ 0 := by
  decide

/-- C5 amended: when the `k`-th pending wait of an admitted segmented send
fails (timeout or abort) after the first `k` frames resolved, the sender
stops — exactly frames `0..k` are written — and returns a failure outcome
whose frame count equals the TOTAL number of frames the message was
segmented into (`frames.length`), not the number resolved before the
failure. -/
theorem claim_C5_failure_stops_reports_total (st : SessionVars) (msg : List Char)
    (evs : Nat → AckEvent) (k : Nat)
    (hconn : st.isConnected = true) (hw : st.hasWriteChar = true)
    (hidle : st.sendInProgress = false)
    (hk : k < (makeFramesNoSpaces msg).length)
    (hbefore : ∀ j, j < k → evs j = .echoOk)
    (hfail : evs k ≠ .echoOk) :
    (sendChunkedSeqStopAndWait st msg evs).res.ok = false ∧
    (sendChunkedSeqStopAndWait st msg evs).res.frames = (makeFramesNoSpaces msg).length ∧
    (sendChunkedSeqStopAndWait st msg evs).writes =
      ((makeFramesNoSpaces msg).take (k + 1)).map (fun f => payloadOf f ++ [ '\n' ]) := by
  have hk' : k < ((makeFramesNoSpaces msg).map payloadOf).length := by
    rw [List.length_map]
    exact hk
  have hbefore' : ∀ j, j < k → evs (0 + j) = .echoOk := by
    intro j hj
    rw [Nat.zero_add]
    exact hbefore j hj
  have hfail' : evs (0 + k) ≠ .echoOk := by
    rw [Nat.zero_add]
    exact hfail
  have hloop := sendLoop_fail k ((makeFramesNoSpaces msg).map payloadOf) evs 0 hk'
    hbefore' hfail'
  obtain ⟨f, hf⟩ : ∃ f, (makeFramesNoSpaces msg)[k]? = some f :=
    ⟨_, List.getElem?_eq_getElem hk⟩
  have hget : ((makeFramesNoSpaces msg).map payloadOf)[k]? = some (payloadOf f) := by
    rw [List.getElem?_map, hf]
    rfl
  have hsome : ∃ e, (sendLoop ((makeFramesNoSpaces msg).map payloadOf) evs 0).2 = some e := by
    rw [hloop]
    rw [hget]
    cases hev : evs (0 + k) with
    | echoOk => exact absurd (by rwa [Nat.zero_add] at hev) hfail
    | timeout => exact ⟨_, rfl⟩
    | aborted r => exact ⟨_, rfl⟩
  obtain ⟨e, he⟩ := hsome
  rw [sendChunked_admitted st msg evs hconn hw hidle]
  refine ⟨?_, rfl, ?_⟩
  · simp [he]
  · show ((sendLoop ((makeFramesNoSpaces msg).map payloadOf) evs 0).1.map
        (fun p => p ++ [ '\n' ])) = _
    rw [hloop]
    simp only [List.map_take, List.map_map]
    rfl

theorem claim_C5_failure_stops_reports_total_witness :
    (sendChunkedSeqStopAndWait idleConnected msg18 allTimeout).res.ok = false ∧
    (sendChunkedSeqStopAndWait idleConnected msg18 allTimeout).res.frames =
      (makeFramesNoSpaces msg18).length ∧
    (sendChunkedSeqStopAndWait idleConnected msg18 allTimeout).writes =
      ((makeFramesNoSpaces msg18).take (0 + 1)).map (fun f => payloadOf f ++ [ '\n' ]) :=
  claim_C5_failure_stops_reports_total idleConnected msg18 allTimeout 0
    (by decide) (by decide) (by decide) (by decide)
    (fun j hj => absurd hj (Nat.not_lt_zero j)) (by decide)

/-- C6: invoking the chunked sender while a send is in flight
(`sendInProgress = true`) on a connected session returns the busy failure
`{ ok: false, bytes: 0, frames: 0 }` with the `Send already in progress`
log, performs no write, and returns the state completely unchanged — the
in-flight send's pending-ack slot, timer and progress are untouched. -/
theorem claim_C6_busy_rejected (st : SessionVars) (msg : List Char)
    (evs : Nat → AckEvent) (hconn : st.isConnected = true)
    (hw : st.hasWriteChar = true) (hbusy : st.sendInProgress = true) :
    sendChunkedSeqStopAndWait st msg evs =
      ⟨st, ⟨false, 0, 0⟩, [], [busyLog], none⟩ := by
  simp [sendChunkedSeqStopAndWait, hconn, hw, hbusy]

theorem claim_C6_busy_rejected_witness :
    sendChunkedSeqStopAndWait busySession ("XYZ".toList) allEchoOk =
      ⟨busySession, ⟨false, 0, 0⟩, [], [busyLog], none⟩ :=
  claim_C6_busy_rejected busySession ("XYZ".toList) allEchoOk
    (by decide) (by decide) (by decide)

/-- C7: when the `k`-th pending wait of an admitted segmented send times out
(the first `k` frames having resolved), the pending wait is rejected with
the `AckTimeout` error carrying the expected payload of frame `k`, the send
returns a failure, and the final state is back to idle — `sendInProgress`
false and all four pending-ack slots cleared, connection flags preserved —
so a subsequent send passes both admission checks. -/
theorem claim_C7_timeout_returns_idle (st : SessionVars) (msg : List Char)
    (evs : Nat → AckEvent) (k : Nat)
    (hconn : st.isConnected = true) (hw : st.hasWriteChar = true)
    (hidle : st.sendInProgress = false)
    (hk : k < (makeFramesNoSpaces msg).length)
    (hbefore : ∀ j, j < k → evs j = .echoOk)
    (htime : evs k = .timeout) :
    (sendChunkedSeqStopAndWait st msg evs).res.ok = false ∧
    (sendChunkedSeqStopAndWait st msg evs).err =
      ((makeFramesNoSpaces msg)[k]?).map (fun f => ackTimeoutMsg (payloadOf f)) ∧
    (sendChunkedSeqStopAndWait st msg evs).st.sendInProgress = false ∧
    (sendChunkedSeqStopAndWait st msg evs).st.awaitingPayload = none ∧
    (sendChunkedSeqStopAndWait st msg evs).st.awaitingResolve = false ∧
    (sendChunkedSeqStopAndWait st msg evs).st.awaitingReject = false ∧
    (sendChunkedSeqStopAndWait st msg evs).st.awaitingTimer = false ∧
    (sendChunkedSeqStopAndWait st msg evs).st.isConnected = true ∧
    (sendChunkedSeqStopAndWait st msg evs).st.hasWriteChar = true := by
  have hk' : k < ((makeFramesNoSpaces msg).map payloadOf).length := by
    rw [List.length_map]
    exact hk
  have hbefore' : ∀ j, j < k → evs (0 + j) = .echoOk := by
    intro j hj
    rw [Nat.zero_add]
    exact hbefore j hj
  have hfail' : evs (0 + k) ≠ .echoOk := by
    rw [Nat.zero_add, htime]
    intro hcontra
    cases hcontra
  have hloop := sendLoop_fail k ((makeFramesNoSpaces msg).map payloadOf) evs 0 hk'
    hbefore' hfail'
  obtain ⟨f, hf⟩ : ∃ f, (makeFramesNoSpaces msg)[k]? = some f :=
    ⟨_, List.getElem?_eq_getElem hk⟩
  have hget : ((makeFramesNoSpaces msg).map payloadOf)[k]? = some (payloadOf f) := by
    rw [List.getElem?_map, hf]
    rfl
  have herr : (sendLoop ((makeFramesNoSpaces msg).map payloadOf) evs 0).2 =
      some (ackTimeoutMsg (payloadOf f)) := by
    rw [hloop, hget]
    show ackReject (payloadOf f) (evs (0 + k)) = _
    rw [Nat.zero_add, htime]
    rfl
  rw [sendChunked_admitted st msg evs hconn hw hidle]
  refine ⟨by simp [herr], ?_, rfl, rfl, rfl, rfl, rfl, by simp [clearSendState, hconn], by simp [clearSendState, hw]⟩
  show (sendLoop ((makeFramesNoSpaces msg).map payloadOf) evs 0).2 = _
  rw [herr, hf]
  rfl

theorem claim_C7_timeout_returns_idle_witness :
    (sendChunkedSeqStopAndWait idleConnected ("X".toList) allTimeout).res.ok = false ∧
    (sendChunkedSeqStopAndWait idleConnected ("X".toList) allTimeout).err =
      ((makeFramesNoSpaces ("X".toList))[0]?).map (fun f => ackTimeoutMsg (payloadOf f)) ∧
    (sendChunkedSeqStopAndWait idleConnected ("X".toList) allTimeout).st.sendInProgress = false ∧
    (sendChunkedSeqStopAndWait idleConnected ("X".toList) allTimeout).st.awaitingPayload = none ∧
    (sendChunkedSeqStopAndWait idleConnected ("X".toList) allTimeout).st.awaitingResolve = false ∧
    (sendChunkedSeqStopAndWait idleConnected ("X".toList) allTimeout).st.awaitingReject = false ∧
    (sendChunkedSeqStopAndWait idleConnected ("X".toList) allTimeout).st.awaitingTimer = false ∧
    (sendChunkedSeqStopAndWait idleConnected ("X".toList) allTimeout).st.isConnected = true ∧
    (sendChunkedSeqStopAndWait idleConnected ("X".toList) allTimeout).st.hasWriteChar = true :=
  claim_C7_timeout_returns_idle idleConnected ("X".toList) allTimeout 0
    (by decide) (by decide) (by decide) (by decide)
    (fun j hj => absurd hj (Nat.not_lt_zero j)) (by decide)

/-- C10: every admitted run of the segmented sender — full success, ack
timeout, or abort, i.e. under every event oracle — ends through the
`finally` block with `sendInProgress` false and all four pending-ack
variables cleared, the connection flags untouched. -/
theorem claim_C10_slot_always_cleared (st : SessionVars) (msg : List Char)
    (evs : Nat → AckEvent)
    (hconn : st.isConnected = true) (hw : st.hasWriteChar = true)
    (hidle : st.sendInProgress = false) :
    (sendChunkedSeqStopAndWait st msg evs).st =
      ⟨st.isConnected, st.hasWriteChar, false, none, false, false, false⟩ := by
  rw [sendChunked_admitted st msg evs hconn hw hidle]
  rfl

theorem claim_C10_slot_always_cleared_witness :
    (sendChunkedSeqStopAndWait idleConnected ("hello".toList) allEchoOk).st =
      ⟨idleConnected.isConnected, idleConnected.hasWriteChar, false, none,
        false, false, false⟩ :=
  claim_C10_slot_always_cleared idleConnected ("hello".toList) allEchoOk
    (by decide) (by decide) (by decide)

/-- C1 counterexample: `"HELLO"` satisfies the claim's short-path premise —
its raw encoding plus terminator is 6 bytes, strictly below the 20-byte
budget — but `sendMessage` writes `"0|HELLO\n"`, a seq-0 framed payload,
not the claimed frameless `"HELLO\n"`. -/
theorem claim_C1_counterexample :
    ("HELLO".toList.length + 1 < BLE_MAX_WRITE_BYTES) ∧
    (sendMessage idleConnected ("HELLO".toList) allEchoOk).writes =
      [ "0|HELLO\n".toList ] ∧
    ("0|HELLO\n".toList ≠ "HELLO\n".toList) ∧
    strStartsWith ("0|HELLO\n".toList) ("0|".toList) = true := by
  decide

/-- C1 amended: for every connected session and every message whose trimmed
form is nonempty, whitespace-free and at most `maxDataLenForSeq 0 = 17`
characters long, `sendMessage` takes the direct path: a single raw write of
the seq-0 framed payload `"0|" + trimmed` plus the line terminator, no
acknowledgment awaited (the event oracle is never consulted), no chunked
result object, and the session state unchanged.  Messages of trimmed length
18, although their raw encoding still fits below the 20-byte budget, go
through the chunked sender instead. -/
theorem claim_C1_short_direct_path (st : SessionVars) (message : List Char)
    (evs : Nat → AckEvent)
    (hconn : st.isConnected = true) (hw : st.hasWriteChar = true)
    (hne : jsTrim message ≠ [])
    (hws : (jsTrim message).any isJsSpace = false)
    (hlen : (jsTrim message).length ≤ maxDataLenForSeq 0) :
    sendMessage st message evs =
      ⟨st, [ '0' :: '|' :: jsTrim message ++ [ '\n' ] ],
        [txLog ('0' :: '|' :: jsTrim message)], none⟩ := by
  have hmsg : message ≠ [] := by
    intro hnil
    apply hne
    rw [hnil]
    rfl
  simp [sendMessage, sendMessageDirect, List.isEmpty_eq_false, hmsg, hne, hws,
    hlen, hconn, hw]

theorem claim_C1_short_direct_path_witness :
    sendMessage idleConnected ("HELLO".toList) allEchoOk =
      ⟨idleConnected, [ '0' :: '|' :: jsTrim ("HELLO".toList) ++ [ '\n' ] ],
        [txLog ('0' :: '|' :: jsTrim ("HELLO".toList))], none⟩ :=
  claim_C1_short_direct_path idleConnected ("HELLO".toList) allEchoOk
    (by decide) (by decide) (by decide) (by decide) (by decide)

/-- C4 counterexample: `"A B"` is short enough for the claim's short path
(4 encoded bytes, below the 20-byte budget) and contains whitespace, yet
`sendMessage` performs no write at all and emits the whitespace refusal —
the whitespace check runs before the path choice, not only on the
segmented path. -/
theorem claim_C4_counterexample :
    ("A B".toList.length + 1 < BLE_MAX_WRITE_BYTES) ∧
    ("A B".toList.any isJsSpace = true) ∧
    (sendMessage idleConnected ("A B".toList) allEchoOk).writes = [] ∧
    (sendMessage idleConnected ("A B".toList) allEchoOk).logs = [wsRefusalLog] ∧
    (sendMessage idleConnected ("A B".toList) allEchoOk).chunkedRes = none := by
  decide

/-- C4 amended: a message whose trimmed form still contains whitespace is
rejected with the whitespace refusal before the path choice — on the short
and the segmented path alike, for every session state: no write, no chunked
send, state unchanged.  (Purely leading/trailing whitespace is removed by
the trim and does not trigger the refusal.) -/
theorem claim_C4_whitespace_always_rejected (st : SessionVars)
    (message : List Char) (evs : Nat → AckEvent)
    (hws : (jsTrim message).any isJsSpace = true) :
    sendMessage st message evs = ⟨st, [], [wsRefusalLog], none⟩ := by
  have hne : jsTrim message ≠ [] := by
    intro hnil
    rw [hnil] at hws
    simp at hws
  have hmsg : message ≠ [] := by
    intro hnil
    apply hne
    rw [hnil]
    rfl
  simp [sendMessage, List.isEmpty_eq_false, hmsg, hne, hws]

theorem claim_C4_whitespace_always_rejected_witness :
    sendMessage idleConnected ("A B".toList) allTimeout =
      ⟨idleConnected, [], [wsRefusalLog], none⟩ :=
  claim_C4_whitespace_always_rejected idleConnected ("A B".toList) allTimeout
    (by decide)

/-- C9: an inbound line is fed to the ack correlator exactly when it starts
with `'ECHO:'` — with the spaced variant `'ECHO: '` the remainder after 6
characters is taken as the echoed payload, otherwise the remainder after 5 —
and a non-matching line, an unarmed correlator, or an echoed payload
different from the expected one leaves the whole session state unchanged. -/
theorem claim_C9_ack_detection (line : List Char) (st : SessionVars) :
    (strStartsWith line echoColonHdr = false → handleAckLine line st = st) ∧
    (strStartsWith line echoColonSpHdr = true →
      handleAckLine line st = tryResolveAck (line.drop 6) st) ∧
    (strStartsWith line echoColonHdr = true →
      strStartsWith line echoColonSpHdr = false →
      handleAckLine line st = tryResolveAck (line.drop 5) st) ∧
    (∀ echoed, some echoed ≠ st.awaitingPayload → tryResolveAck echoed st = st) ∧
    (∀ echoed, st.awaitingResolve = false → tryResolveAck echoed st = st) := by
  refine ⟨?_, ?_, ?_, ?_, ?_⟩
  · intro h
    simp [handleAckLine, h]
  · intro hsp
    have hhdr : strStartsWith line echoColonHdr = true := by
      have hsplit : echoColonSpHdr = echoColonHdr ++ [ ' ' ] := by decide
      rw [hsplit] at hsp
      exact strStartsWith_of_append echoColonHdr line [ ' ' ] hsp
    simp [handleAckLine, hhdr, hsp]
  · intro hhdr hsp
    simp [handleAckLine, hhdr, hsp]
  · intro echoed hne
    unfold tryResolveAck
    split
    all_goals simp [hne]
  · intro echoed hres
    simp [tryResolveAck, hres]

theorem claim_C9_ack_detection_witness :
    (handleAckLine ("HELLO".toList) busySession = busySession) ∧
    (handleAckLine ("ECHO: 0|abc".toList) busySession =
      tryResolveAck ("ECHO: 0|abc".toList.drop 6) busySession) ∧
    (handleAckLine ("ECHO:0|abc".toList) busySession =
      tryResolveAck ("ECHO:0|abc".toList.drop 5) busySession) ∧
    (tryResolveAck ("0|zzz".toList) busySession = busySession) :=
  ⟨(claim_C9_ack_detection ("HELLO".toList) busySession).1 (by decide),
   (claim_C9_ack_detection ("ECHO: 0|abc".toList) busySession).2.1 (by decide),
   (claim_C9_ack_detection ("ECHO:0|abc".toList) busySession).2.2.1 (by decide) (by decide),
   (claim_C9_ack_detection ("HELLO".toList) busySession).2.2.2.1 ("0|zzz".toList) (by decide)⟩
